import Mathlib

/-!
Verification of the REST transport core of the upstash-go client.

The development shallowly embeds the transport layer (`internal/rest`,
historically `package client`): request construction, read/write routing,
response-envelope interpretation, optional base64 decoding of response
trees, the pipeline facility, and the SSE stream reader's line processing.
Go strings are byte sequences, embedded as `List Nat`; JSON values are the
inductive `Jv`; the HTTP exchange is an oracle parameter, and each operation
additionally returns the list of HTTP calls it issued so that routing and
call-count properties can be stated.
-/

namespace UpstashGo

/-- A Go string: a sequence of bytes. -/
abbrev GoStr := List Nat

/-- Byte sequence of an ASCII string literal (code points = UTF-8 bytes). -/
def gostr (s : String) : GoStr := s.data.map Char.toNat

/-- A decoded JSON value, as produced by `encoding/json` decoding into `any`:
string, number (float64 on the wire; the representation is irrelevant to the
claims), bool, null, array (`[]any`) or object (`map[string]any`, embedded as
an association list with distinct keys). -/
inductive Jv where
  | str (s : GoStr)
  | num (x : Int)
  | bool (b : Bool)
  | null
  | arr (l : List Jv)
  | obj (kvs : List (GoStr × Jv))

/-- Go map indexing `m[k]` on the association-list embedding of
`map[string]any` (first match; decoded JSON maps have distinct keys). -/
def lookup : List (GoStr × Jv) → GoStr → Option Jv
  | [], _ => none
  | (k, v) :: rest, key => if k = key then some v else lookup rest key

/-- Value of a byte in the standard base64 alphabet (`A-Za-z0-9+/`),
`none` for bytes outside it. Models the decode map of
`encoding/base64.StdEncoding`. -/
def b64val (c : Nat) : Option Nat :=
  if 65 ≤ c ∧ c ≤ 90 then some (c - 65)
  else if 97 ≤ c ∧ c ≤ 122 then some (c - 97 + 26)
  else if 48 ≤ c ∧ c ≤ 57 then some (c - 48 + 52)
  else if c = 43 then some 62
  else if c = 47 then some 63
  else none

/-- Decode a newline-free base64 input by 4-byte quanta, models the quantum
loop of `base64.StdEncoding.Decode`: `=` padding may appear only as `xx==`
or `xxx=` in the final quantum; non-canonical trailing bits are accepted
(StdEncoding is not the Strict variant); any other shape is a
`CorruptInputError`. -/
def b64quanta : List Nat → Option (List Nat)
  | [] => some []
  | c1 :: c2 :: c3 :: c4 :: rest =>
    match b64val c1, b64val c2 with
    | some v1, some v2 =>
      if c3 = 61 then
        if c4 = 61 ∧ rest = [] then some [v1 * 4 + v2 / 16]
        else none
      else
        match b64val c3 with
        | some v3 =>
          if c4 = 61 then
            if rest = [] then some [v1 * 4 + v2 / 16, (v2 % 16) * 16 + v3 / 4]
            else none
          else
            match b64val c4 with
            | some v4 =>
              match b64quanta rest with
              | some tl =>
                some ([v1 * 4 + v2 / 16, (v2 % 16) * 16 + v3 / 4,
                       (v3 % 4) * 64 + v4] ++ tl)
              | none => none
            | none => none
        | none => none
    | _, _ => none
  | _ => none

/-- `base64.StdEncoding.DecodeString`: newline bytes (CR, LF) are skipped
anywhere in the input, then the input is decoded by 4-byte quanta.
`none` models a returned `CorruptInputError`. -/
def b64decode (s : GoStr) : Option GoStr :=
  b64quanta (s.filter fun c => decide (c ≠ 10) && decide (c ≠ 13))

mutual
/-- `decodeBase64` from the transport (`internal/rest`): the recursive
response transform applied when base64 mode is on. The Go code mutates
arrays and maps in place and returns the argument; the embedding returns
the transformed tree. -/
def decodeBase64 : Jv → Jv
  | .str s =>
    if s = gostr "OK" then .str s
    else
      match b64decode s with
      | some decoded => .str decoded
      | none => .str s
  | .arr l => .arr (decodeBase64L l)
  | .obj kvs => .obj (decodeBase64O kvs)
  | v => v

/-- Element-wise transform of a `[]any`, the `case []any` loop. -/
def decodeBase64L : List Jv → List Jv
  | [] => []
  | v :: rest => decodeBase64 v :: decodeBase64L rest

/-- Value-wise transform of a `map[string]any`, the `case map[string]any`
loop (keys are untouched). -/
def decodeBase64O : List (GoStr × Jv) → List (GoStr × Jv)
  | [] => []
  | (k, v) :: rest => (k, decodeBase64 v) :: decodeBase64O rest
end

/-- The immutable fields of `upstashClient` (`internal/rest.New`). -/
structure Config where
  url : String
  edgeUrl : String
  token : String
  enableBase64 : Bool

/-- A Go `any` value handed to `json.Marshal` as a request body: either a
wire-representable value, a channel or function (which `json.Marshal`
rejects with an `UnsupportedTypeError`), or a composite containing such
values. -/
inductive GoAny where
  | jv (v : Jv)
  | chanVal
  | funcVal
  | arrOf (l : List GoAny)
  | mapOf (kvs : List (GoStr × GoAny))

mutual
/-- `json.Marshal` on the embedded fragment of Go values: wire-representable
values marshal to their JSON value; a channel or function anywhere in the
tree yields an `UnsupportedTypeError` (its message, as a byte string). -/
def marshal : GoAny → Except GoStr Jv
  | .jv v => .ok v
  | .chanVal => .error (gostr "json: unsupported type: chan int")
  | .funcVal => .error (gostr "json: unsupported type: func()")
  | .arrOf l =>
    match marshalL l with
    | .ok vs => .ok (.arr vs)
    | .error e => .error e
  | .mapOf kvs =>
    match marshalO kvs with
    | .ok vs => .ok (.obj vs)
    | .error e => .error e

/-- `json.Marshal` element-wise on a `[]any`. -/
def marshalL : List GoAny → Except GoStr (List Jv)
  | [] => .ok []
  | v :: rest =>
    match marshal v with
    | .ok jv =>
      match marshalL rest with
      | .ok tl => .ok (jv :: tl)
      | .error e => .error e
    | .error e => .error e

/-- `json.Marshal` value-wise on a `map[string]any`. -/
def marshalO : List (GoStr × GoAny) → Except GoStr (List (GoStr × Jv))
  | [] => .ok []
  | (k, v) :: rest =>
    match marshal v with
    | .ok jv =>
      match marshalO rest with
      | .ok tl => .ok ((k, jv) :: tl)
      | .error e => .error e
    | .error e => .error e
end

/-- `marshalBody`: JSON-marshal the body if present (`nil` body gives no
payload). The payload is kept as its JSON value rather than its byte
encoding. -/
def marshalBody : Option GoAny → Except GoStr (Option Jv)
  | none => .ok none
  | some b =>
    match marshal b with
    | .ok v => .ok (some v)
    | .error e => .error e

/-- One HTTP request issued by the transport: the method, the selected base
URL, the path segments, the full URL and the JSON payload (if any). -/
structure HttpCall where
  method : String
  baseUrl : String
  path : List String
  url : String
  payload : Option Jv

/-- Outcome of one `httpClient.Do` exchange: a network/transport failure
(no HTTP response obtained) carrying the transport error's message, or an
HTTP response with a status code and a body. The body is `none` when it is
not valid JSON, `some v` when it decodes to the JSON value `v`. -/
inductive NetOutcome where
  | fail (e : String)
  | resp (status : Nat) (body : Option Jv)

/-- The errors `request` can return, each constructor holding exactly the
data its `fmt.Errorf` format string interpolates. -/
inductive GoErr where
  /-- "unable to marshal request body: %w" -/
  | marshalErr (inner : GoStr)
  /-- "unable to perform request: %w" -/
  | netErr (inner : String)
  /-- "response returned status code %d: %+v, path: %s" with the
  pretty-printed body -/
  | badStatus (code : Nat) (body : List (GoStr × Jv)) (path : List String)
  /-- "unable to decode response body of bad response: %s: %w" -/
  | badRespDecode (code : Nat)
  /-- "unable to unmarshal response: %w" -/
  | respDecode
  /-- `fmt.Errorf("%s", errStr)`: the logical error field, verbatim -/
  | apiErr (msg : GoStr)
  /-- "unexpected return type for pipeline: %T" -/
  | pipelineType
  /-- Modelled from the spec: the cancellation error surfaced when the
  caller's deadline fires during an inter-retry sleep. -/
  | ctxCancelled
  /-- Modelled from the spec: the last network error wrapped with
  retry-count context after exhausting `maxAttempts` attempts. -/
  | retryExhausted (attempts : Nat) (inner : String)

/-- JSON string escaping as in `encoding/json` (default HTML-escaping
encoder): quote, backslash, `<`, `>`, `&` and control bytes are escaped,
other bytes pass through. -/
def jsonEscape (s : GoStr) : GoStr :=
  s.flatMap fun c =>
    if c = 34 then gostr "\\\""
    else if c = 92 then gostr "\\\\"
    else if c = 10 then gostr "\\n"
    else if c = 13 then gostr "\\r"
    else if c = 9 then gostr "\\t"
    else if c = 60 then gostr "\\u003c"
    else if c = 62 then gostr "\\u003e"
    else if c = 38 then gostr "\\u0026"
    else if c < 32 then
      gostr "\\u00" ++ [hexDigit (c / 16), hexDigit (c % 16)]
    else [c]
where
  hexDigit (n : Nat) : Nat := if n < 10 then 48 + n else 97 + (n - 10)

/-- Byte-wise lexicographic comparison of Go strings, the order in which
`encoding/json` sorts map keys when marshalling. -/
def goStrLe (a b : GoStr) : Bool :=
  match a, b with
  | [], _ => true
  | _ :: _, [] => false
  | x :: xs, y :: ys => if x = y then goStrLe xs ys else decide (x < y)

mutual
/-- Sort every object's fields byte-wise by key, the key order in which
`encoding/json` marshals maps. -/
def sortKeys : Jv → Jv
  | .arr l => .arr (sortKeysL l)
  | .obj kvs => .obj ((sortKeysO kvs).mergeSort fun a b => goStrLe a.1 b.1)
  | v => v

/-- Key sorting, element-wise on arrays. -/
def sortKeysL : List Jv → List Jv
  | [] => []
  | v :: rest => sortKeys v :: sortKeysL rest

/-- Key sorting, value-wise on object fields. -/
def sortKeysO : List (GoStr × Jv) → List (GoStr × Jv)
  | [] => []
  | (k, v) :: rest => (k, sortKeys v) :: sortKeysO rest
end

mutual
/-- `json.MarshalIndent(v, "", "  ")` on a key-sorted decoded JSON value:
two-space indentation, scalars as `encoding/json` prints them. `pfx` is the
indentation accumulated for the enclosing value; callers sort keys with
`sortKeys` first. -/
def marshalIndent (pfx : GoStr) : Jv → GoStr
  | .null => gostr "null"
  | .bool true => gostr "true"
  | .bool false => gostr "false"
  | .num x => gostr (toString x)
  | .str s => gostr "\"" ++ jsonEscape s ++ gostr "\""
  | .arr [] => gostr "[]"
  | .arr (v :: rest) =>
    gostr "[\n" ++ marshalIndentItems (pfx ++ gostr "  ") (v :: rest)
      ++ gostr "\n" ++ pfx ++ gostr "]"
  | .obj [] => gostr "\x7b\x7d"
  | .obj (kv :: rest) =>
    gostr "\x7b\n" ++ marshalIndentFields (pfx ++ gostr "  ") (kv :: rest)
      ++ gostr "\n" ++ pfx ++ gostr "\x7d"

/-- Array items, comma-and-newline separated, each on its own indented
line. -/
def marshalIndentItems (pfx : GoStr) : List Jv → GoStr
  | [] => []
  | [v] => pfx ++ marshalIndent pfx v
  | v :: rest =>
    pfx ++ marshalIndent pfx v ++ gostr ",\n" ++ marshalIndentItems pfx rest

/-- Object fields, comma-and-newline separated, `"key": value` on indented
lines. -/
def marshalIndentFields (pfx : GoStr) : List (GoStr × Jv) → GoStr
  | [] => []
  | [(k, v)] =>
    pfx ++ gostr "\"" ++ jsonEscape k ++ gostr "\": " ++ marshalIndent pfx v
  | (k, v) :: rest =>
    pfx ++ gostr "\"" ++ jsonEscape k ++ gostr "\": " ++ marshalIndent pfx v
      ++ gostr ",\n" ++ marshalIndentFields pfx rest
end

/-- `fmt` rendering of a `[]string` with the `%s` verb: `[seg seg ...]`. -/
def pathFmt (path : List String) : String :=
  "[" ++ String.intercalate " " path ++ "]"

/-- The message of each transport error, following the `fmt.Errorf` format
strings of `request` byte for byte. -/
def errMsg : GoErr → GoStr
  | .marshalErr inner => gostr "unable to marshal request body: " ++ inner
  | .netErr inner => gostr "unable to perform request: " ++ gostr inner
  | .badStatus code body path =>
    gostr "response returned status code " ++ gostr (toString code)
      ++ gostr ": " ++ marshalIndent [] (sortKeys (.obj body))
      ++ gostr ", path: " ++ gostr (pathFmt path)
  | .badRespDecode code =>
    gostr "unable to decode response body of bad response: "
      ++ gostr (toString code) ++ gostr " "
  | .respDecode => gostr "unable to unmarshal response: "
  | .apiErr msg => msg
  | .pipelineType => gostr "unexpected return type for pipeline: "
  | .ctxCancelled => gostr "context canceled"
  | .retryExhausted attempts inner =>
    gostr "request failed after " ++ gostr (toString attempts)
      ++ gostr " attempts: " ++ gostr inner

/-- `strings.Join(path, "/")`. -/
def joinSlash (path : List String) : String :=
  String.intercalate "/" path

/-- Apply `decodeBase64` when base64 mode is on, the guard that wraps every
return of a decoded value in `request`. -/
def maybeDecode (c : Config) (v : Jv) : Jv :=
  if c.enableBase64 then decodeBase64 v else v

/-- The 2xx interpretation of a decoded response body (`request` lines
134-162): an object with a non-empty string `error` field is a logical
failure; otherwise a `result` field, the whole object, an array, or any
other shape is returned (after optional base64 decoding). -/
def interpretBody (c : Config) (raw : Jv) : Except GoErr Jv :=
  match raw with
  | .obj respMap =>
    match lookup respMap (gostr "error") with
    | some (.str errStr) =>
      if errStr ≠ [] then .error (.apiErr errStr)
      else
        match lookup respMap (gostr "result") with
        | some res => .ok (maybeDecode c res)
        | none => .ok (maybeDecode c (.obj respMap))
    | _ =>
      match lookup respMap (gostr "result") with
      | some res => .ok (maybeDecode c res)
      | none => .ok (maybeDecode c (.obj respMap))
  | .arr respSlice => .ok (maybeDecode c (.arr respSlice))
  | rawResponse => .ok (maybeDecode c rawResponse)

/-- The status-and-body interpretation of a completed HTTP exchange
(`request` lines 111-162): a non-2xx status is reported with the
pretty-printed body when the body decodes to a JSON object, and as a
decode failure otherwise; a 2xx body is decoded as a generic JSON value
and interpreted as a response envelope. -/
def handleResponse (c : Config) (path : List String) (status : Nat)
    (respBody : Option Jv) : Except GoErr Jv :=
  if status < 200 ∨ 300 ≤ status then
    match respBody with
    | some (.obj responseBody) => .error (.badStatus status responseBody path)
    | _ => .error (.badRespDecode status)
  else
    match respBody with
    | none => .error .respDecode
    | some rawResponse => interpretBody c rawResponse

/-- `request` (the single-attempt transport of `internal/rest`, package
`client`): marshal the body, select the base URL (edge for GET when an edge
URL is configured), issue the HTTP exchange, and interpret the response.
Returns the list of HTTP calls issued together with the result. The
`http.NewRequestWithContext` failure branch is not modelled: it cannot fire
for a string URL and constant method. The `MarshalIndent` fallback branch
for a bad-status body is likewise unreachable (the pretty-printer is total
on decoded JSON). -/
def request (c : Config) (method : String) (path : List String)
    (body : Option GoAny) (net : NetOutcome) :
    List HttpCall × Except GoErr Jv :=
  match marshalBody body with
  | .error e => ([], .error (.marshalErr e))
  | .ok payload =>
    let baseUrl := if method = "GET" ∧ c.edgeUrl ≠ "" then c.edgeUrl else c.url
    let url := baseUrl ++ "/" ++ joinSlash path
    let call : HttpCall := ⟨method, baseUrl, path, url, payload⟩
    match net with
    | .fail e => ([call], .error (.netErr e))
    | .resp status respBody => ([call], handleResponse c path status respBody)

/-- An outbound request: path segments and optional body. -/
structure Request where
  path : List String
  body : Option GoAny := none

/-- `Read`: a bodiless GET on the request's path. -/
def Read (c : Config) (req : Request) (net : NetOutcome) :
    List HttpCall × Except GoErr Jv :=
  request c "GET" req.path none net

/-- `Write`: a POST on the request's path carrying the request's body. -/
def Write (c : Config) (req : Request) (net : NetOutcome) :
    List HttpCall × Except GoErr Jv :=
  request c "POST" req.path req.body net

/-- `streamReader`'s per-line processing, run over the sequence of lines the
scanner yields, projected on a run where the caller's cancellation never
fires: lines with the `data: ` prefix have the prefix trimmed
(`strings.TrimPrefix`), one layer of double quotes stripped when the
remainder starts and ends with `"` and has length at least 2
(`msg[1 : len(msg)-1]`), and are emitted in order; other lines are
skipped. -/
def streamReader : List GoStr → List GoStr
  | [] => []
  | line :: rest =>
    if (gostr "data: ").isPrefixOf line then
      let msg := line.drop (gostr "data: ").length
      let msg :=
        if [34].isPrefixOf msg && [34].isSuffixOf msg && decide (2 ≤ msg.length)
        then (msg.drop 1).dropLast
        else msg
      msg :: streamReader rest
    else streamReader rest

/-- The specification's description of one line's emission, stated in the
spec's own terms: a line beginning with the `data: ` prefix emits the line
with that prefix stripped, after removing exactly one layer of quoting when
the remaining text both starts and ends with a double quote and is long
enough to carry the pair; any other line produces no emission. -/
def specLineEmission (line : GoStr) : Option GoStr :=
  if (gostr "data: ").isPrefixOf line then
    let payload := line.drop (gostr "data: ").length
    if [34].isPrefixOf payload && [34].isSuffixOf payload
        && decide (2 ≤ payload.length) then
      some ((payload.drop 1).dropLast)
    else
      some payload
  else none

/-- `Pipeline` (`client.go`): the queued commands, each a `[]any` of the
command name followed by its arguments. -/
structure Pipeline where
  commands : List (List GoAny)

/-- `Pipeline.Push`: append `[command, args...]` to the queue. -/
def Pipeline.Push (p : Pipeline) (command : String) (args : List GoAny) :
    Pipeline :=
  { p with commands := p.commands ++ [GoAny.jv (Jv.str (gostr command)) :: args] }

/-- `Pipeline.Exec` (`client.go`): an empty queue executes no network call
and returns an empty slice; otherwise the queued commands are sent, as one
JSON array, in a single `Write` to the path `["pipeline"]`. A `nil`
response (`res == nil`, i.e. JSON `null`) returns `nil, nil`, embedded as
`.ok none`; an array response returns its elements; any other shape is the
"unexpected return type for pipeline" error. -/
def Pipeline.Exec (c : Config) (p : Pipeline) (net : NetOutcome) :
    List HttpCall × Except GoErr (Option (List Jv)) :=
  if p.commands.isEmpty then ([], .ok (some []))
  else
    let out := request c "POST" ["pipeline"]
      (some (.arrOf (p.commands.map .arrOf))) net
    (out.1,
      match out.2 with
      | .error e => .error e
      | .ok .null => .ok none
      | .ok (.arr list) => .ok (some list)
      | .ok _ => .error .pipelineType)

/-- `RetryConfig.Retries` default (`client.go`: a zero value falls back
to 5). -/
def defaultRetries : Nat := 5

/-- Result of the retry loop: the caller cancelled during a backoff sleep,
every attempt failed at the network level (with the last error), or an HTTP
exchange completed. -/
inductive AttemptResult where
  | cancelled
  | exhausted (lastErr : String)
  | gotResp (status : Nat) (body : Option Jv)

/-- Modelled from the spec: the retry loop of the current `internal/rest`
transport, whose source file is absent from this snapshot (only its caller
`client.go`, its configuration surface `RetryConfig`, and the older
non-retrying transport are present). Spec §4.1: attempt the HTTP call; on a
network/transport failure consult the backoff policy at the current attempt
index, sleep that duration interruptibly (a fired cancellation aborts with
a cancellation error), and retry, making up to `maxAttempts` attempts in
total; a completed HTTP exchange ends the loop immediately. `net i` is the
outcome of attempt `i`, `cancelled i` whether the caller's cancellation has
fired by the sleep following attempt `i`, `fuel` the attempts remaining.
Returns the number of attempts made, the backoff durations consulted for
the sleeps, and the final outcome. -/
def retryLoop (backoff : Nat → Nat) (net : Nat → NetOutcome)
    (cancelled : Nat → Bool) : Nat → Nat → Nat × List Nat × AttemptResult
  | _, 0 => (0, [], .exhausted "")
  | i, fuel + 1 =>
    match net i with
    | .resp s b => (1, [], .gotResp s b)
    | .fail e =>
      match fuel with
      | 0 => (1, [], .exhausted e)
      | fuel' + 1 =>
        if cancelled i then (1, [backoff i], .cancelled)
        else
          let rec_ := retryLoop backoff net cancelled (i + 1) (fuel' + 1)
          (rec_.1 + 1, backoff i :: rec_.2.1, rec_.2.2)

/-- Modelled from the spec: a `Read`/`Write` call of the current retrying
transport. The body is marshalled (a failure is fatal and issues no
attempt), then the retry loop runs from attempt 0 with `maxAttempts` fuel;
exhaustion returns the last network error wrapped with retry-count context,
cancellation returns a cancellation error, and a completed HTTP exchange is
interpreted exactly as in the single-attempt `request`. Returns the number
of attempts made and the result. -/
def requestWithRetry (c : Config) (maxAttempts : Nat) (backoff : Nat → Nat)
    (path : List String) (body : Option GoAny) (net : Nat → NetOutcome)
    (cancelled : Nat → Bool) : Nat × List Nat × Except GoErr Jv :=
  match marshalBody body with
  | .error e => (0, [], .error (.marshalErr e))
  | .ok _ =>
    let out := retryLoop backoff net cancelled 0 maxAttempts
    (out.1, out.2.1,
      match out.2.2 with
      | .cancelled => .error .ctxCancelled
      | .exhausted e => .error (.retryExhausted maxAttempts e)
      | .gotResp status b => handleResponse c path status b)

/-- Whether a transport result is the body-marshal error. -/
def isMarshalErr : Except GoErr Jv → Bool
  | .error (.marshalErr _) => true
  | _ => false

/-- Whether an exchange outcome is a network/transport failure. -/
def isFailB : NetOutcome → Bool
  | .fail _ => true
  | .resp _ _ => false

/-- The message of a failed exchange outcome. -/
def failMsg : NetOutcome → String
  | .fail e => e
  | .resp _ _ => ""

lemma decodeBase64L_eq_map (l : List Jv) :
    decodeBase64L l = l.map decodeBase64 := by
  induction l with
  | nil => rfl
  | cons v rest ih => simp [decodeBase64L, ih]

lemma decodeBase64O_eq_map (kvs : List (GoStr × Jv)) :
    decodeBase64O kvs = kvs.map fun kv => (kv.1, decodeBase64 kv.2) := by
  induction kvs with
  | nil => rfl
  | cons kv rest ih =>
    obtain ⟨k, v⟩ := kv
    simp [decodeBase64O, ih]

lemma gostr_append (a b : String) : gostr (a ++ b) = gostr a ++ gostr b := by
  simp [gostr]

lemma interpretBody_not_marshalErr (c : Config) (raw : Jv) :
    isMarshalErr (interpretBody c raw) = false := by
  unfold interpretBody
  rcases raw with s | x | b | _ | l | kvs <;> simp only [isMarshalErr]
  rcases h : lookup kvs (gostr "error") with _ | v
  · simp only [h]
    rcases h2 : lookup kvs (gostr "result") with _ | r <;> simp [h2, isMarshalErr]
  · rcases v with es | xx | bb | _ | ll | kk <;> simp only [h] <;>
      first
      | · by_cases he : es = []
          · simp only [he, ne_eq, not_true_eq_false, if_false]
            rcases h2 : lookup kvs (gostr "result") with _ | r <;>
              simp [h2, isMarshalErr]
          · simp [he, isMarshalErr]
      | · rcases h2 : lookup kvs (gostr "result") with _ | r <;>
            simp [h2, isMarshalErr]

lemma handleResponse_not_marshalErr (c : Config) (path : List String)
    (status : Nat) (respBody : Option Jv) :
    isMarshalErr (handleResponse c path status respBody) = false := by
  unfold handleResponse
  by_cases hs : status < 200 ∨ 300 ≤ status
  · simp only [hs, if_true]
    rcases respBody with _ | v
    · simp [isMarshalErr]
    · cases v <;> simp [isMarshalErr]
  · simp only [hs, if_false]
    rcases respBody with _ | v
    · simp [isMarshalErr]
    · exact interpretBody_not_marshalErr c v

/-- C4: the base64 response transform is total (it is a function covering
every JSON constructor, defined without partiality): the literal string
"OK" passes through unchanged; any other string that `DecodeString` accepts
is replaced by its decoded bytes; a string `DecodeString` rejects passes
through unchanged; numbers, booleans and null pass through unchanged; the
transform recurses element-wise into arrays and value-wise into
string-keyed objects. -/
theorem decodeBase64_spec :
    decodeBase64 (.str (gostr "OK")) = .str (gostr "OK")
    ∧ (∀ s d, s ≠ gostr "OK" → b64decode s = some d →
        decodeBase64 (.str s) = .str d)
    ∧ (∀ s, b64decode s = none → decodeBase64 (.str s) = .str s)
    ∧ (∀ x, decodeBase64 (.num x) = .num x)
    ∧ (∀ b, decodeBase64 (.bool b) = .bool b)
    ∧ decodeBase64 .null = .null
    ∧ (∀ l, decodeBase64 (.arr l) = .arr (l.map decodeBase64))
    ∧ (∀ kvs, decodeBase64 (.obj kvs) =
        .obj (kvs.map fun kv => (kv.1, decodeBase64 kv.2))) := by
  refine ⟨by simp [decodeBase64], ?_, ?_, ?_, ?_, ?_, ?_, ?_⟩
  · intro s d hs hd
    simp [decodeBase64, hs, hd]
  · intro s hd
    by_cases hs : s = gostr "OK"
    · simp [decodeBase64, hs]
    · simp [decodeBase64, hs, hd]
  · intro x; rfl
  · intro b; rfl
  · rfl
  · intro l; simp [decodeBase64, decodeBase64L_eq_map]
  · intro kvs; simp [decodeBase64, decodeBase64O_eq_map]

/-- Witness for C4: decoding the base64 string "YmFy" (which is not "OK")
yields the bytes of "bar". -/
theorem decodeBase64_spec_witness :
    decodeBase64 (.str (gostr "YmFy")) = .str (gostr "bar") :=
  decodeBase64_spec.2.1 (gostr "YmFy") (gostr "bar") (by decide) (by decide)

/-- C8: over any sequence of SSE lines, the stream reader's emissions are
exactly those described by the specification: each line bearing the
`data: ` prefix emits the prefix-stripped remainder, with one layer of
quoting removed when the remainder starts and ends with a double quote and
is long enough to carry the pair; every other line emits nothing; the
emissions appear in line order. -/
theorem streamReader_spec (lines : List GoStr) :
    streamReader lines = lines.filterMap specLineEmission := by
  induction lines with
  | nil => rfl
  | cons line rest ih =>
    by_cases hp : (gostr "data: ").isPrefixOf line
    · simp only [streamReader, specLineEmission, hp, if_true,
        List.filterMap_cons]
      split <;> simp [ih]
    · simp [streamReader, specLineEmission, hp, List.filterMap_cons, ih]

/-- C10: `Read` issues a bodiless GET, ignoring any body attached to the
request — its outcome is unchanged when the body is replaced by `nil` —
and it can never fail with a body-marshal error. -/
theorem read_ignores_body (c : Config) (r : Request) (net : NetOutcome) :
    Read c r net = Read c { r with body := none } net
    ∧ isMarshalErr (Read c r net).2 = false := by
  refine ⟨rfl, ?_⟩
  unfold Read request
  cases net with
  | fail e => rfl
  | resp status respBody =>
    simpa [marshalBody] using handleResponse_not_marshalErr c r.path status respBody

/-- C5: `Read` selects the edge base URL for every HTTP call it issues when
an edge URL is configured (and then never uses the main base URL, provided
the two differ), and the main base URL when no edge URL is configured;
`Write` selects the main base URL for every call regardless of the edge
configuration. -/
theorem read_write_routing (c : Config) (r : Request) (net : NetOutcome) :
    (c.edgeUrl ≠ "" → ∀ call ∈ (Read c r net).1,
      call.baseUrl = c.edgeUrl ∧ (c.url ≠ c.edgeUrl → call.baseUrl ≠ c.url))
    ∧ (c.edgeUrl = "" → ∀ call ∈ (Read c r net).1, call.baseUrl = c.url)
    ∧ (∀ call ∈ (Write c r net).1, call.baseUrl = c.url) := by
  refine ⟨?_, ?_, ?_⟩
  · intro he call hcall
    unfold Read request at hcall
    simp only [marshalBody] at hcall
    cases net with
    | fail e =>
      simp at hcall
      subst hcall
      constructor
      · simp [he]
      · intro hne
        simp [he]
        exact fun h => hne h.symm
    | resp status respBody =>
      simp at hcall
      subst hcall
      constructor
      · simp [he]
      · intro hne
        simp [he]
        exact fun h => hne h.symm
  · intro he call hcall
    unfold Read request at hcall
    simp only [marshalBody] at hcall
    cases net with
    | fail e =>
      simp at hcall
      subst hcall
      simp [he]
    | resp status respBody =>
      simp at hcall
      subst hcall
      simp [he]
  · intro call hcall
    unfold Write request at hcall
    rcases hm : marshalBody r.body with e | payload
    · simp [hm] at hcall
    · rw [hm] at hcall
      cases net with
      | fail e =>
        simp at hcall
        subst hcall
        simp
      | resp status respBody =>
        simp at hcall
        subst hcall
        simp

/-- Witness for C5: with an edge URL configured, a concrete `Read` call is
routed to the edge endpoint. -/
theorem read_write_routing_witness :
    ∀ call ∈ (Read ⟨"http://main", "http://edge", "tok", false⟩
        ⟨["get", "foo"], none⟩ (.resp 200 (some .null))).1,
      call.baseUrl = "http://edge" := by
  intro call hcall
  exact ((read_write_routing ⟨"http://main", "http://edge", "tok", false⟩
    ⟨["get", "foo"], none⟩ (.resp 200 (some .null))).1
      (by decide) call hcall).1

/-- C7: a `Write` whose body `json.Marshal` rejects fails immediately with
the marshal error — whose message contains "unable to marshal request
body" — and issues no HTTP call. -/
theorem write_marshal_error (c : Config) (path : List String) (b : GoAny)
    (e : GoStr) (net : NetOutcome) (hb : marshal b = .error e) :
    (Write c ⟨path, some b⟩ net).1 = []
    ∧ (Write c ⟨path, some b⟩ net).2 = .error (.marshalErr e)
    ∧ (gostr "unable to marshal request body") <:+:
        errMsg (.marshalErr e) := by
  refine ⟨?_, ?_, ?_⟩
  · unfold Write request
    simp [marshalBody, hb]
  · unfold Write request
    simp [marshalBody, hb]
  · refine ⟨[], gostr ": " ++ e, ?_⟩
    have h : gostr "unable to marshal request body" ++ gostr ": "
        = gostr "unable to marshal request body: " := by decide
    simp only [errMsg, List.nil_append, ← List.append_assoc, h]

/-- Witness for C7: writing a channel-valued body fails with the marshal
error and issues no HTTP call. -/
theorem write_marshal_error_witness :
    (Write ⟨"http://main", "", "tok", false⟩ ⟨["set"], some .chanVal⟩
        (.resp 200 (some .null))).1 = []
    ∧ (Write ⟨"http://main", "", "tok", false⟩ ⟨["set"], some .chanVal⟩
        (.resp 200 (some .null))).2
      = .error (.marshalErr (gostr "json: unsupported type: chan int")) := by
  have h := write_marshal_error ⟨"http://main", "", "tok", false⟩ ["set"]
    .chanVal (gostr "json: unsupported type: chan int")
    (.resp 200 (some .null)) rfl
  exact ⟨h.1, h.2.1⟩

lemma interpretBody_result (c : Config) (m : List (GoStr × Jv)) (x : Jv)
    (hres : lookup m (gostr "result") = some x)
    (herr : ∀ e, lookup m (gostr "error") = some (.str e) → e = []) :
    interpretBody c (.obj m) = .ok (maybeDecode c x) := by
  unfold interpretBody
  rcases h : lookup m (gostr "error") with _ | v
  · simp [h, hres]
  · rcases v with es | xx | bb | _ | ll | kk <;> simp only [h] <;>
      first
      | · have he : es = [] := herr es h
          simp [he, hres]
      | · simp [hres]

/-- C2: a 2xx response whose body is the JSON object `{"result": X}` with
no non-empty string `error` field makes `Read` and `Write` return exactly
`X` — unchanged when base64 mode is off, transformed by `decodeBase64` when
it is on. -/
theorem result_roundtrip (c : Config) (path : List String) (wb : Option GoAny)
    (payload : Option Jv) (status : Nat) (m : List (GoStr × Jv)) (x : Jv)
    (h2 : 200 ≤ status) (h3 : status < 300)
    (hres : lookup m (gostr "result") = some x)
    (herr : ∀ e, lookup m (gostr "error") = some (.str e) → e = []) :
    (Read c ⟨path, wb⟩ (.resp status (some (.obj m)))).2
      = .ok (if c.enableBase64 then decodeBase64 x else x)
    ∧ (marshalBody wb = .ok payload →
        (Write c ⟨path, wb⟩ (.resp status (some (.obj m)))).2
          = .ok (if c.enableBase64 then decodeBase64 x else x)) := by
  have hhr : handleResponse c path status (some (.obj m))
      = .ok (maybeDecode c x) := by
    unfold handleResponse
    have hs : ¬ (status < 200 ∨ 300 ≤ status) := by omega
    simp only [hs, if_false]
    exact interpretBody_result c m x hres herr
  constructor
  · unfold Read request
    simpa [marshalBody, maybeDecode] using hhr
  · intro hmar
    unfold Write request
    simpa [hmar, maybeDecode] using hhr

/-- Witness for C2: a 200 response `{"result": "bar"}` makes `Read` return
the string "bar". -/
theorem result_roundtrip_witness :
    (Read ⟨"http://main", "", "tok", false⟩ ⟨["get", "foo"], none⟩
        (.resp 200 (some (.obj [(gostr "result", .str (gostr "bar"))])))).2
      = .ok (.str (gostr "bar")) := by
  have h := (result_roundtrip ⟨"http://main", "", "tok", false⟩ ["get", "foo"]
    none none 200 [(gostr "result", .str (gostr "bar"))] (.str (gostr "bar"))
    (by omega) (by omega) rfl
    (fun e he => by
      rw [show lookup [(gostr "result", Jv.str (gostr "bar"))] (gostr "error")
        = none from rfl] at he
      cases he)).1
  exact h

/-- C3: a response whose body is `{"error": "<msg>"}` with a non-empty
message makes `Read` and `Write` fail: with a 2xx status, the error message
is exactly the message, verbatim; with a non-2xx status, the error message
contains the status code, the pretty-printed response body, and the request
path. -/
theorem error_envelope (c : Config) (path : List String) (wb : Option GoAny)
    (payload : Option Jv) (status : Nat) (m : GoStr)
    (hm : m ≠ []) (hmar : marshalBody wb = .ok payload) :
    (200 ≤ status → status < 300 →
      (Read c ⟨path, none⟩
          (.resp status (some (.obj [(gostr "error", .str m)])))).2
        = .error (.apiErr m)
      ∧ (Write c ⟨path, wb⟩
          (.resp status (some (.obj [(gostr "error", .str m)])))).2
        = .error (.apiErr m)
      ∧ errMsg (.apiErr m) = m)
    ∧ (status < 200 ∨ 300 ≤ status →
      ∃ err,
        (Read c ⟨path, none⟩
            (.resp status (some (.obj [(gostr "error", .str m)])))).2
          = .error err
        ∧ (Write c ⟨path, wb⟩
            (.resp status (some (.obj [(gostr "error", .str m)])))).2
          = .error err
        ∧ gostr (toString status) <:+: errMsg err
        ∧ marshalIndent [] (sortKeys (.obj [(gostr "error", .str m)]))
            <:+: errMsg err
        ∧ gostr (pathFmt path) <:+: errMsg err) := by
  constructor
  · intro h2 h3
    have hhr : handleResponse c path status
        (some (.obj [(gostr "error", .str m)])) = .error (.apiErr m) := by
      unfold handleResponse
      have hs : ¬ (status < 200 ∨ 300 ≤ status) := by omega
      simp only [hs, if_false]
      unfold interpretBody
      simp [lookup, hm]
    refine ⟨?_, ?_, rfl⟩
    · unfold Read request
      simpa [marshalBody] using hhr
    · unfold Write request
      simpa [hmar] using hhr
  · intro hs
    refine ⟨.badStatus status [(gostr "error", .str m)] path, ?_, ?_, ?_, ?_, ?_⟩
    · unfold Read request
      simp [marshalBody, handleResponse, hs]
    · unfold Write request
      simp [hmar, handleResponse, hs]
    · exact ⟨gostr "response returned status code ",
        gostr ": " ++ marshalIndent [] (sortKeys (.obj [(gostr "error", .str m)]))
          ++ gostr ", path: " ++ gostr (pathFmt path),
        by simp [errMsg, List.append_assoc]⟩
    · exact ⟨gostr "response returned status code " ++ gostr (toString status)
          ++ gostr ": ",
        gostr ", path: " ++ gostr (pathFmt path),
        by simp [errMsg, List.append_assoc]⟩
    · exact ⟨gostr "response returned status code " ++ gostr (toString status)
          ++ gostr ": "
          ++ marshalIndent [] (sortKeys (.obj [(gostr "error", .str m)]))
          ++ gostr ", path: ",
        [], by simp [errMsg, List.append_assoc]⟩

/-- Witness for C3: a 500 response `{"error": "Internal Error"}` makes
`Read` fail with a message containing the status code 500. -/
theorem error_envelope_witness :
    ∃ err,
      (Read ⟨"http://main", "", "tok", false⟩ ⟨["get"], none⟩
          (.resp 500 (some (.obj [(gostr "error",
            .str (gostr "Internal Error"))])))).2
        = .error err
      ∧ gostr (toString 500) <:+: errMsg err := by
  have h := (error_envelope ⟨"http://main", "", "tok", false⟩ ["get"] none
    none 500 (gostr "Internal Error") (by decide) rfl).2 (by omega)
  obtain ⟨err, h1, h2, h3, h4, h5⟩ := h
  exact ⟨err, h1, h3⟩

/-- C6: pushing commands onto a pipeline queues them in order; executing a
non-empty pipeline issues exactly one POST to the path `["pipeline"]` whose
payload is the single JSON array of the queued commands in push order, and
a 2xx array response is returned as the per-command envelope list; an empty
pipeline issues no network call and returns an empty list with no error. -/
theorem pipeline_spec (c : Config) (p : Pipeline) (js : List Jv)
    (l : List Jv) (status : Nat)
    (hne : p.commands ≠ [])
    (hmar : marshal (.arrOf (p.commands.map .arrOf)) = .ok (.arr js))
    (h2 : 200 ≤ status) (h3 : status < 300) (hb : c.enableBase64 = false) :
    (Pipeline.Exec c p (.resp status (some (.arr l)))).1.length = 1
    ∧ (∀ call ∈ (Pipeline.Exec c p (.resp status (some (.arr l)))).1,
        call.method = "POST" ∧ call.path = ["pipeline"]
        ∧ call.payload = some (.arr js))
    ∧ (Pipeline.Exec c p (.resp status (some (.arr l)))).2 = .ok (some l)
    ∧ (∀ (q : Pipeline) (cmd : String) (args : List GoAny),
        (Pipeline.Push q cmd args).commands
          = q.commands ++ [GoAny.jv (Jv.str (gostr cmd)) :: args])
    ∧ (∀ net, Pipeline.Exec c ⟨[]⟩ net = ([], .ok (some []))) := by
  have hes : p.commands.isEmpty = false := by
    cases hc : p.commands with
    | nil => exact absurd hc hne
    | cons a as => rfl
  have hreq := request c "POST" ["pipeline"]
    (some (.arrOf (p.commands.map .arrOf))) (.resp status (some (.arr l)))
  have hhr : handleResponse c ["pipeline"] status (some (.arr l))
      = .ok (.arr l) := by
    unfold handleResponse
    have hs : ¬ (status < 200 ∨ 300 ≤ status) := by omega
    simp [hs, interpretBody, maybeDecode, hb]
  have hout : request c "POST" ["pipeline"]
      (some (.arrOf (p.commands.map .arrOf))) (.resp status (some (.arr l)))
      = ([⟨"POST", c.url, ["pipeline"], c.url ++ "/" ++ joinSlash ["pipeline"],
          some (.arr js)⟩], .ok (.arr l)) := by
    unfold request
    simp [marshalBody, hmar, hhr]
  refine ⟨?_, ?_, ?_, ?_, ?_⟩
  · unfold Pipeline.Exec
    simp [hes, hout]
  · intro call hcall
    unfold Pipeline.Exec at hcall
    simp [hes, hout] at hcall
    subst hcall
    exact ⟨rfl, rfl, rfl⟩
  · unfold Pipeline.Exec
    simp [hes, hout]
  · intro q cmd args
    rfl
  · intro net
    rfl

/-- Witness for C6: pushing `["SET","k","v"]` and `["GET","k"]` and
executing against a 200 two-envelope array response issues one call to
`["pipeline"]` carrying both commands in order and returns both
envelopes. -/
theorem pipeline_spec_witness :
    (Pipeline.Exec ⟨"http://main", "", "tok", false⟩
        (Pipeline.Push (Pipeline.Push ⟨[]⟩ "SET"
            [.jv (.str (gostr "k")), .jv (.str (gostr "v"))]) "GET"
          [.jv (.str (gostr "k"))])
        (.resp 200 (some (.arr [.obj [(gostr "result", .str (gostr "OK"))],
          .obj [(gostr "result", .str (gostr "v"))]])))).2
      = .ok (some [.obj [(gostr "result", .str (gostr "OK"))],
          .obj [(gostr "result", .str (gostr "v"))]]) := by
  have h := pipeline_spec ⟨"http://main", "", "tok", false⟩
    (Pipeline.Push (Pipeline.Push ⟨[]⟩ "SET"
        [.jv (.str (gostr "k")), .jv (.str (gostr "v"))]) "GET"
      [.jv (.str (gostr "k"))])
    [.arr [.str (gostr "SET"), .str (gostr "k"), .str (gostr "v")],
     .arr [.str (gostr "GET"), .str (gostr "k")]]
    [.obj [(gostr "result", .str (gostr "OK"))],
     .obj [(gostr "result", .str (gostr "v"))]]
    200 (by simp [Pipeline.Push]) rfl (by omega) (by omega) rfl
  exact h.2.2.1

lemma isFailB_iff (o : NetOutcome) : isFailB o = true ↔ ∃ e, o = .fail e := by
  cases o <;> simp [isFailB]

lemma retryLoop_last_fail (backoff : Nat → Nat) (net : Nat → NetOutcome)
    (cancelled : Nat → Bool) (i : Nat) (e : String)
    (hne : net i = .fail e) :
    retryLoop backoff net cancelled i 1 = (1, [], .exhausted e) := by
  unfold retryLoop
  rw [hne]

lemma retryLoop_resp (backoff : Nat → Nat) (net : Nat → NetOutcome)
    (cancelled : Nat → Bool) (i fuel : Nat) (s : Nat) (b : Option Jv)
    (hne : net i = .resp s b) :
    retryLoop backoff net cancelled i (fuel + 1) = (1, [], .gotResp s b) := by
  unfold retryLoop
  rw [hne]

lemma retryLoop_step (backoff : Nat → Nat) (net : Nat → NetOutcome)
    (cancelled : Nat → Bool) (i f : Nat) (e : String)
    (hne : net i = .fail e) (hcan : cancelled i = false) :
    retryLoop backoff net cancelled i (f + 2)
      = ((retryLoop backoff net cancelled (i + 1) (f + 1)).1 + 1,
         backoff i :: (retryLoop backoff net cancelled (i + 1) (f + 1)).2.1,
         (retryLoop backoff net cancelled (i + 1) (f + 1)).2.2) := by
  conv_lhs => rw [retryLoop]
  rw [hne, hcan]
  rfl

lemma range_map_backoff (backoff : Nat → Nat) (i n : Nat) :
    (List.range (n + 1)).map (fun j => backoff (i + j))
      = backoff i :: (List.range n).map (fun j => backoff (i + 1 + j)) := by
  simp only [List.range_succ_eq_map, List.map_cons, List.map_map, Nat.add_zero]
  have hf : ((fun j => backoff (i + j)) ∘ Nat.succ)
      = fun j => backoff (i + 1 + j) := by
    funext j
    simp only [Function.comp_apply, Nat.succ_eq_add_one]
    congr 1
    omega
  rw [hf]

lemma retryLoop_all_fail (backoff : Nat → Nat) (net : Nat → NetOutcome)
    (cancelled : Nat → Bool) (hnc : ∀ j, cancelled j = false) :
    ∀ fuel i, 1 ≤ fuel →
    (∀ j, i ≤ j → j < i + fuel → isFailB (net j) = true) →
    (retryLoop backoff net cancelled i fuel).1 = fuel
    ∧ (retryLoop backoff net cancelled i fuel).2.1
        = (List.range (fuel - 1)).map (fun j => backoff (i + j))
    ∧ (retryLoop backoff net cancelled i fuel).2.2
        = .exhausted (failMsg (net (i + fuel - 1))) := by
  intro fuel
  induction fuel with
  | zero => intro i h; omega
  | succ f ih =>
    intro i _ hfail
    have hi : isFailB (net i) = true := hfail i le_rfl (by omega)
    obtain ⟨e, hne⟩ := (isFailB_iff (net i)).mp hi
    cases f with
    | zero =>
      rw [retryLoop_last_fail backoff net cancelled i e hne]
      have harith : i + 1 - 1 = i := by omega
      simp [harith, hne, failMsg]
    | succ f' =>
      have hrec := ih (i + 1) (by omega)
        (fun j hj1 hj2 => hfail j (by omega) (by omega))
      rw [retryLoop_step backoff net cancelled i f' e hne (hnc i)]
      refine ⟨by simp only [hrec.1], ?_, ?_⟩
      · have hr : f' + 1 + 1 - 1 = (f' + 1 - 1) + 1 := by omega
        rw [hrec.2.1, hr, range_map_backoff]
      · have harith : i + 1 + (f' + 1) - 1 = i + (f' + 1 + 1) - 1 := by omega
        simp only [hrec.2.2, harith]

lemma retryLoop_first_success (backoff : Nat → Nat) (net : Nat → NetOutcome)
    (cancelled : Nat → Bool) (hnc : ∀ j, cancelled j = false) :
    ∀ fuel i k s b, i ≤ k → k < i + fuel →
    (∀ j, i ≤ j → j < k → isFailB (net j) = true) →
    net k = .resp s b →
    (retryLoop backoff net cancelled i fuel).1 = k - i + 1
    ∧ (retryLoop backoff net cancelled i fuel).2.1
        = (List.range (k - i)).map (fun j => backoff (i + j))
    ∧ (retryLoop backoff net cancelled i fuel).2.2 = .gotResp s b := by
  intro fuel
  induction fuel with
  | zero => intro i k s b h1 h2 h3 h4; omega
  | succ f ih =>
    intro i k s b hik hkf hfail hk
    by_cases heq : i = k
    · subst heq
      rw [retryLoop_resp backoff net cancelled i f s b hk]
      simp
    · have hlt : i < k := lt_of_le_of_ne hik heq
      have hi : isFailB (net i) = true := hfail i le_rfl hlt
      obtain ⟨e, hne⟩ := (isFailB_iff (net i)).mp hi
      cases f with
      | zero => omega
      | succ f' =>
        have hrec := ih (i + 1) k s b (by omega) (by omega)
          (fun j hj1 hj2 => hfail j (by omega) hj2) hk
        rw [retryLoop_step backoff net cancelled i f' e hne (hnc i)]
        refine ⟨by rw [hrec.1]; omega, ?_, hrec.2.2⟩
        have hr : k - i = (k - (i + 1)) + 1 := by omega
        rw [hrec.2.1, hr, range_map_backoff]

/-- C1: when the body marshals and the caller never cancels, a retrying
call whose every attempt fails at the network level makes exactly
`maxAttempts` attempts and returns the last network error wrapped with
retry-count context; a first completed HTTP exchange at attempt `k`
terminates the loop immediately — `k + 1` attempts are made and the
response is interpreted exactly as a single-attempt `request` interprets
it; the default attempt limit is 5. -/
theorem retry_spec (c : Config) (maxAttempts : Nat) (backoff : Nat → Nat)
    (path : List String) (body : Option GoAny) (payload : Option Jv)
    (net : Nat → NetOutcome) (cancelled : Nat → Bool)
    (hmax : 1 ≤ maxAttempts) (hmar : marshalBody body = .ok payload)
    (hnc : ∀ j, cancelled j = false) :
    ((∀ j, j < maxAttempts → isFailB (net j) = true) →
      (requestWithRetry c maxAttempts backoff path body net cancelled).1
        = maxAttempts
      ∧ (requestWithRetry c maxAttempts backoff path body net cancelled).2.1
        = (List.range (maxAttempts - 1)).map backoff
      ∧ (requestWithRetry c maxAttempts backoff path body net cancelled).2.2
        = .error (.retryExhausted maxAttempts
            (failMsg (net (maxAttempts - 1)))))
    ∧ (∀ k s b, k < maxAttempts →
        (∀ j, j < k → isFailB (net j) = true) → net k = .resp s b →
        (requestWithRetry c maxAttempts backoff path body net cancelled).1
          = k + 1
        ∧ (requestWithRetry c maxAttempts backoff path body net cancelled).2.1
          = (List.range k).map backoff
        ∧ (requestWithRetry c maxAttempts backoff path body net cancelled).2.2
          = handleResponse c path s b)
    ∧ defaultRetries = 5 := by
  refine ⟨?_, ?_, rfl⟩
  · intro hfail
    have h := retryLoop_all_fail backoff net cancelled hnc maxAttempts 0
      hmax (fun j hj1 hj2 => hfail j (by omega))
    unfold requestWithRetry
    rw [hmar]
    simp only [Nat.zero_add] at h
    simp [h.1, h.2.1, h.2.2]
  · intro k s b hk hfail hnet
    have h := retryLoop_first_success backoff net cancelled hnc maxAttempts
      0 k s b (by omega) (by omega) (fun j hj1 hj2 => hfail j hj2) hnet
    unfold requestWithRetry
    rw [hmar]
    simp only [Nat.sub_zero, Nat.zero_add] at h
    simp [h.1, h.2.1, h.2.2]

/-- Witness for C1: with the default limit of 5 attempts and a network that
refuses every connection, a retrying write makes exactly 5 attempts and
returns the exhaustion error wrapping the last network error. -/
theorem retry_spec_witness :
    (requestWithRetry ⟨"http://main", "", "tok", false⟩ 5 (fun i => 50 * i)
        ["set"] none (fun _ => .fail "connection refused")
        (fun _ => false)).1 = 5
    ∧ (requestWithRetry ⟨"http://main", "", "tok", false⟩ 5 (fun i => 50 * i)
        ["set"] none (fun _ => .fail "connection refused")
        (fun _ => false)).2.2
      = .error (.retryExhausted 5 "connection refused") := by
  have h := (retry_spec ⟨"http://main", "", "tok", false⟩ 5 (fun i => 50 * i)
    ["set"] none none (fun _ => .fail "connection refused") (fun _ => false)
    (by omega) rfl (fun j => rfl)).1 (fun j hj => rfl)
  exact ⟨h.1, h.2.2⟩

end UpstashGo
